import Mathlib

/-!
Verification of the keyboard-bridge core (sheepy0125/keyboard-bridge):
a shallow embedding of the key-set tracker, chord matcher, HID report
encoder and report-dispatch retry loops from `src/main.rs` and
`src/chord.rs`, together with theorems settling the specified
behavioural properties.
-/

namespace KeyboardBridge

/-- Modelled from the spec: `key.rs` is absent from the sources; §3 says
`RegularKey` "enumerates all non-modifier keys the device can report; each
carries a fixed USB HID usage code".  We embed the representative subset
needed by the configured chords plus a few ordinary keys; `regularCode`
carries the standard HID usage codes. -/
inductive RegularKey
  | Enter
  | Grave
  | Period
  | Backspace
  | Space
  | A
  | B
  | C
  deriving DecidableEq, Repr

/-- Modelled from the spec: the fixed USB HID usage code each `RegularKey`
carries (`*key as u8` in `USBKeyEvent::to_report`). -/
def regularCode : RegularKey → Nat
  | .Enter => 40
  | .Grave => 53
  | .Period => 55
  | .Backspace => 42
  | .Space => 44
  | .A => 4
  | .B => 5
  | .C => 6

/-- Modelled from the spec: §3 — "one of eight physical modifiers
(left/right Ctrl/Shift/Alt/Super) plus four canonical Either values
(EitherCtrl/Shift/Alt/Super) used only as match targets, never as a raw
key-press value; each carries a fixed bit position for report encoding". -/
inductive ModifierKey
  | LeftCtrl
  | LeftShift
  | LeftAlt
  | LeftSuper
  | RightCtrl
  | RightShift
  | RightAlt
  | RightSuper
  | EitherCtrl
  | EitherShift
  | EitherAlt
  | EitherSuper
  deriving DecidableEq, Repr

/-- Modelled from the spec: the fixed bit position each physical modifier
carries for report encoding (`*modifier_key as u8` in
`USBKeyEvent::to_report`), per the standard HID boot-keyboard layout.
The Either values are match-only targets that never enter the
pressed-modifier list, so their numeric value is never OR-ed into a
report; they are given 0 here. -/
def modifierBits : ModifierKey → Nat
  | .LeftCtrl => 1
  | .LeftShift => 2
  | .LeftAlt => 4
  | .LeftSuper => 8
  | .RightCtrl => 16
  | .RightShift => 32
  | .RightAlt => 64
  | .RightSuper => 128
  | _ => 0

/-- Whether a modifier is one of the 8 physical modifiers (as opposed to a
canonical Either match target). -/
def ModifierKey.isPhysical : ModifierKey → Bool
  | .EitherCtrl | .EitherShift | .EitherAlt | .EitherSuper => false
  | _ => true

/-- `KeyCode` from `key.rs` (shape fixed by its uses in `main.rs` and
`chord.rs`): `Modifier`, `Regular`, or the `Unknown` sentinel. -/
inductive KeyCode
  | Modifier (m : ModifierKey)
  | Regular (r : RegularKey)
  | Unknown
  deriving DecidableEq, Repr

/-- Modelled from the spec: `key.rs` is absent; §6 says the event source
supplies kinds in {press, release, repeat}.  The `KeyEvent` discriminants
used by `process_key_events` via `as u8` follow the kernel evdev values:
Release = 0, Press = 1, Repeat = 2. -/
def releaseValue : Nat := 0

/-- Press discriminant of `KeyEvent` (see `releaseValue`). -/
def pressValue : Nat := 1

/-- Repeat discriminant of `KeyEvent` (see `releaseValue`). -/
def repeatValue : Nat := 2

/- ----------------------------------------------------------------- -/
/- Chord table (`src/chord.rs`)                                       -/
/- ----------------------------------------------------------------- -/

/-- `CHORD_SEQUENCE_START_KEY` from `chord.rs`: `Regular(Enter)`. -/
def CHORD_SEQUENCE_START_KEY : KeyCode := .Regular .Enter

/-- `QUIT_CHORD_SEQUENCE` from `chord.rs`: EitherShift, Grave, Period,
then three Backspaces. -/
def QUIT_CHORD_SEQUENCE : List KeyCode :=
  [.Modifier .EitherShift, .Regular .Grave, .Regular .Period,
   .Regular .Backspace, .Regular .Backspace, .Regular .Backspace]

/-- `ALL_CHORDS` from `chord.rs`: just the quit sequence. -/
def ALL_CHORDS : List (List KeyCode) := [QUIT_CHORD_SEQUENCE]

/- ----------------------------------------------------------------- -/
/- Keyboard session state (`Keyboard` struct in `main.rs`)            -/
/- ----------------------------------------------------------------- -/

/-- The session state of the `Keyboard` struct in `main.rs` (minus the
event stream handle, an external collaborator). `chord_length` is a `u8`
in the source; it is kept as `Nat` and incremented modulo 256 where the
source increments it. -/
structure Keyboard where
  keys : List RegularKey
  modifiers : List ModifierKey
  chord_buffer : KeyCode
  chord_length : Nat
  possible_chords : List (List KeyCode)
  deriving DecidableEq, Repr

/-- The state `Keyboard::new` starts with: empty lists, `Unknown` buffer,
zero chord length. -/
def initialKeyboard : Keyboard :=
  { keys := [], modifiers := [], chord_buffer := .Unknown,
    chord_length := 0, possible_chords := [] }

/-- `Vec::remove` at the index found by `Iterator::position`: removes the
first occurrence of `x`, if any (the release path of
`process_key_events`). -/
def removeFirst {α : Type _} [DecidableEq α] (l : List α) (x : α) : List α :=
  match l.findIdx? (fun y => decide (y = x)) with
  | some idx => l.eraseIdx idx
  | none => l

/-- `Keyboard::process_key_events` from `main.rs`.  `value` is the raw
`i32` event value; `event.value().try_into().unwrap_or(Release as u8)`
coerces it to a `u8`, falling back to the Release discriminant when the
value is out of the byte range.  The unreachable arm (values 3..=255) is
modelled as `none` (a panic); every other outcome is `some` of the
updated state. -/
def process_key_events (s : Keyboard) (value : Int) (key_code : KeyCode) :
    Option Keyboard :=
  let v : Nat := if 0 ≤ value ∧ value ≤ 255 then value.toNat else releaseValue
  if v = releaseValue then
    let keys1 := match key_code with
      | .Regular released_key => removeFirst s.keys released_key
      | _ => s.keys
    let modifiers1 := match key_code with
      | .Modifier released_key => removeFirst s.modifiers released_key
      | _ => s.modifiers
    some { s with keys := keys1, modifiers := modifiers1,
                  chord_buffer := .Unknown }
  else if v = pressValue then
    let keys1 := match key_code with
      | .Regular pressed_key => s.keys ++ [pressed_key]
      | _ => s.keys
    let modifiers1 := match key_code with
      | .Modifier pressed_key => s.modifiers ++ [pressed_key]
      | _ => s.modifiers
    some { s with keys := keys1, modifiers := modifiers1,
                  chord_buffer := key_code }
  else if v = repeatValue then
    some s
  else
    none

/-- The special-chord-key replacement table in `process_chords`:
left/right modifier variants map to their Either counterpart; everything
else is left alone (`None`). -/
def replacedModifier : KeyCode → Option KeyCode
  | .Modifier .LeftCtrl => some (.Modifier .EitherCtrl)
  | .Modifier .LeftShift => some (.Modifier .EitherShift)
  | .Modifier .LeftAlt => some (.Modifier .EitherAlt)
  | .Modifier .LeftSuper => some (.Modifier .EitherSuper)
  | .Modifier .RightCtrl => some (.Modifier .EitherCtrl)
  | .Modifier .RightShift => some (.Modifier .EitherShift)
  | .Modifier .RightAlt => some (.Modifier .EitherAlt)
  | .Modifier .RightSuper => some (.Modifier .EitherSuper)
  | _ => none

/-- The conclusion steps of `process_chords` after the candidate update:
return unless exactly one candidate remains
(`self.possible_chords.len() != 1`), then fire only when that chord's
length (as `u8`) equals `chord_length`
(`chord.len() as u8 != self.chord_length`). -/
def concludeChord (s1 : Keyboard) : Keyboard × Option (List KeyCode) :=
  match s1.possible_chords with
  | [chord] =>
      if chord.length % 256 = s1.chord_length then (s1, some chord)
      else (s1, none)
  | _ => (s1, none)

/-- `Keyboard::process_chords` from `main.rs`.  Returns the updated state
together with the chord passed to `handle_chord`, when one fires.
Mirrors the source step by step: start-key re-arm; early return when idle
or the buffer is the `Unknown` sentinel; in-place canonicalization of the
buffer; `retain` of candidates whose element at `chord_length - 1`
matches; `chord_length += 1` (a `u8` increment, hence mod 256); reset to
0 when the candidate list emptied; then `concludeChord`. -/
def process_chords (s : Keyboard) : Keyboard × Option (List KeyCode) :=
  if s.chord_buffer = CHORD_SEQUENCE_START_KEY then
    ({ s with possible_chords := ALL_CHORDS, chord_length := 1 }, none)
  else if s.chord_length = 0 ∨ s.chord_buffer = .Unknown then
    (s, none)
  else
    let buf : KeyCode := match replacedModifier s.chord_buffer with
      | some replaced => replaced
      | none => s.chord_buffer
    let retained := s.possible_chords.filter fun chord =>
      match chord.get? (s.chord_length - 1) with
      | some next_key_of_this_chord => decide (buf = next_key_of_this_chord)
      | none => false
    let length1 := (s.chord_length + 1) % 256
    let s1 : Keyboard :=
      { s with chord_buffer := buf, possible_chords := retained,
               chord_length := if retained = [] then 0 else length1 }
    concludeChord s1

/-- The outcome of a chord handler: terminate the process with an exit
code, or log an error ("Unhandled chord"). -/
inductive ChordAction
  | exitProcess (code : Nat)
  | logError
  deriving DecidableEq, Repr

/-- `Keyboard::handle_chord` from `chord.rs`: the quit sequence exits the
process with status 0; any other chord is logged as an unhandled error.
The `&mut self` receiver is threaded through unchanged (the source never
touches the state here). -/
def handle_chord (s : Keyboard) (chord : List KeyCode) :
    Keyboard × ChordAction :=
  if chord = QUIT_CHORD_SEQUENCE then (s, .exitProcess 0)
  else (s, .logError)

/-- One full per-event processing step of `read_process`:
`process_key_events` then `process_chords` (`main.rs`). `none` models the
panic of the unreachable arm. -/
def processEvent (s : Keyboard) (value : Int) (key_code : KeyCode) :
    Option (Keyboard × Option (List KeyCode)) :=
  match process_key_events s value key_code with
  | some s1 => some (process_chords s1)
  | none => none

/-- Run the per-event pipeline over a list of `(value, key_code)` events,
collecting the chords handed to `handle_chord`.  An `exitProcess` action
stops the run (the process has exited); a panic yields `none`. -/
def runEvents : Keyboard → List (Int × KeyCode) →
    Option (Keyboard × List (List KeyCode))
  | s, [] => some (s, [])
  | s, (value, key_code) :: rest =>
    match process_key_events s value key_code with
    | none => none
    | some s1 =>
      match process_chords s1 with
      | (s2, none) => runEvents s2 rest
      | (s2, some chord) =>
        match handle_chord s2 chord with
        | (s3, .exitProcess _) => some (s3, [chord])
        | (s3, .logError) =>
          match runEvents s3 rest with
          | some (sf, fired) => some (sf, chord :: fired)
          | none => none

/-- Session state reached from startup after pressing the start key and
then LeftShift: armed two deep into the quit chord (the buffer holds the
canonicalized EitherShift). -/
def armedAfterShift : Keyboard :=
  { keys := [.Enter], modifiers := [.LeftShift],
    chord_buffer := .Modifier .EitherShift, chord_length := 2,
    possible_chords := [QUIT_CHORD_SEQUENCE] }

/-- Session state reached from startup after pressing the start key,
LeftShift, Grave, Period and one Backspace. -/
def armedNearQuit : Keyboard :=
  { keys := [.Enter, .Grave, .Period, .Backspace], modifiers := [.LeftShift],
    chord_buffer := .Regular .Backspace, chord_length := 5,
    possible_chords := [QUIT_CHORD_SEQUENCE] }

/-- A session state whose chord buffer still holds the raw LeftShift
value while a match is in progress. -/
def staleShiftState : Keyboard :=
  { keys := [], modifiers := [.LeftShift],
    chord_buffer := .Modifier .LeftShift, chord_length := 2,
    possible_chords := [QUIT_CHORD_SEQUENCE] }

/-- A session state tracking a duplicated regular key (A pressed twice)
and two modifiers, used to exercise first-occurrence removal. -/
def dupKeysState : Keyboard :=
  { keys := [.A, .B, .A], modifiers := [.LeftShift, .LeftCtrl],
    chord_buffer := .Regular .A, chord_length := 0, possible_chords := [] }

/- ----------------------------------------------------------------- -/
/- HID report encoder (`USBKeyEvent::to_report` in `main.rs`)         -/
/- ----------------------------------------------------------------- -/

/-- The regular-key loop of `to_report`: enumerate the pressed keys and
write `report[2 + idx] = *key as u8`, breaking (with a warning) as soon
as `idx >= 6`. -/
def writeKeys (report : List Nat) : List RegularKey → Nat → List Nat
  | [], _ => report
  | key :: rest, idx =>
    if 6 ≤ idx then report
    else writeKeys (report.set (2 + idx) (regularCode key)) rest (idx + 1)

/-- Whether the regular-key loop of `to_report` emits the
"keys pressed at once, some are getting dropped" warning: it does iff the
enumeration reaches `idx >= 6` with a key still in hand. -/
def writeKeysWarns : List RegularKey → Nat → Bool
  | [], _ => false
  | _ :: rest, idx => if 6 ≤ idx then true else writeKeysWarns rest (idx + 1)

/-- `USBKeyEvent::to_report` from `main.rs`: an 8-byte report, all zeros,
byte 0 OR-accumulating each pressed modifier's value, bytes 2..7 filled
with up to six regular-key usage codes in tracked order. -/
def to_report (modifiers : List ModifierKey) (keys : List RegularKey) :
    List Nat :=
  let report := List.replicate 8 0
  -- for modifier_key in self.modifiers { report[0] |= *modifier_key as u8 }
  -- (byte 0 is written only by this loop, so it is folded directly)
  let report := report.set 0 (modifiers.foldl (fun b m => b ||| modifierBits m) 0)
  writeKeys report keys 0

/-- The warning signal of `to_report` (regular-key overflow). -/
def to_report_warns (keys : List RegularKey) : Bool :=
  writeKeysWarns keys 0

/- ----------------------------------------------------------------- -/
/- Report dispatch retry loops (`main` in `main.rs`)                  -/
/- ----------------------------------------------------------------- -/

/-- `MAX_ATTEMPTS` from `main.rs`. -/
def MAX_ATTEMPTS : Nat := 256

/-- The write retry loop of `main`, unfolded for `fuel` iterations.
Each iteration increments `attempt`, tries the write (`succeeds attempt`
tells whether `write_all` returns `Ok` on that attempt), breaks on
success, and otherwise warns when `attempt >= MAX_ATTEMPTS` and loops
again — the source has no exit on bound exhaustion.  `some a` means the
loop broke out of attempt `a` within `fuel` iterations; `none` means it
was still running after `fuel` iterations. -/
def writeLoopFuel (succeeds : Nat → Bool) : Nat → Nat → Option Nat
  | _, 0 => none
  | attempt, fuel + 1 =>
    let attempt := attempt + 1
    if succeeds attempt then some attempt
    else writeLoopFuel succeeds attempt fuel

/-- The flush retry loop of `main`, unfolded for `fuel` iterations,
with `i` counting iterations (only to index the success oracle; the
source's `attempt` variable is never incremented in this loop, so its
`attempt >= MAX_ATTEMPTS` warning guard stays `0 >= 256`).  `true` means
some iteration's `flush` succeeded and the loop broke within `fuel`
iterations. -/
def flushLoopFuel (succeeds : Nat → Bool) : Nat → Nat → Bool
  | _, 0 => false
  | i, fuel + 1 => if succeeds i then true else flushLoopFuel succeeds (i + 1) fuel

/- ----------------------------------------------------------------- -/
/- Helper lemmas                                                      -/
/- ----------------------------------------------------------------- -/

/-- When the chord buffer holds the `Unknown` sentinel (as after any
release), `process_chords` does nothing. -/
lemma process_chords_unknown (s : Keyboard) (h : s.chord_buffer = .Unknown) :
    process_chords s = (s, none) := by
  unfold process_chords
  rw [h]
  rw [if_neg (by decide), if_pos (Or.inr rfl)]

/-- The release branch of `process_key_events` succeeds, resets the chord
buffer to `Unknown`, and does not touch the matcher fields. -/
lemma pke_release_shape (s : Keyboard) (kc : KeyCode) :
    ∃ s1, process_key_events s 0 kc = some s1
      ∧ s1.chord_buffer = .Unknown
      ∧ s1.chord_length = s.chord_length
      ∧ s1.possible_chords = s.possible_chords := by
  cases kc <;> exact ⟨_, rfl, rfl, rfl, rfl⟩

/-- The conclusion steps return the state they were given. -/
lemma concludeChord_fst (s1 : Keyboard) : (concludeChord s1).1 = s1 := by
  unfold concludeChord
  rcases h : s1.possible_chords with _ | ⟨c, _ | ⟨d, tl⟩⟩ <;> simp [h]
  split <;> rfl

/-- `process_chords` never touches the pressed-key lists, and rewrites
the chord buffer only by in-place canonicalization. -/
lemma process_chords_frame (s : Keyboard) :
    (process_chords s).1.keys = s.keys
  ∧ (process_chords s).1.modifiers = s.modifiers
  ∧ ((process_chords s).1.chord_buffer = s.chord_buffer
     ∨ replacedModifier s.chord_buffer = some (process_chords s).1.chord_buffer) := by
  unfold process_chords
  split
  · exact ⟨rfl, rfl, Or.inl rfl⟩
  split
  · exact ⟨rfl, rfl, Or.inl rfl⟩
  refine ⟨?_, ?_, ?_⟩ <;> simp only [concludeChord_fst]
  cases hrm : replacedModifier s.chord_buffer <;> simp [hrm]

/-- Setting the element just past a prefix writes into the suffix. -/
lemma set_append_len (front l : List Nat) (a : Nat) :
    (front ++ l).set front.length a = front ++ l.set 0 a := by
  rw [List.set_append_right _ _ (Nat.le_refl _), Nat.sub_self]

/-- The regular-key loop of `to_report`, generalized over the loop index:
starting from a report consisting of an already-written `2 + idx`-byte
front and zeroed slots, it writes the usage codes of the first `6 - idx`
keys in order and leaves the remaining slots zero. -/
lemma writeKeys_spec :
    ∀ (keys : List RegularKey) (idx : Nat) (front : List Nat),
      front.length = 2 + idx → idx ≤ 6 →
      writeKeys (front ++ List.replicate (6 - idx) 0) keys idx
        = front ++ (keys.take (6 - idx)).map regularCode
            ++ List.replicate (6 - idx - keys.length) 0 := by
  intro keys
  induction keys with
  | nil => intro idx front hf hi; simp [writeKeys]
  | cons k rest ih =>
    intro idx front hf hi
    by_cases h6 : 6 ≤ idx
    · have h0 : 6 - idx = 0 := by omega
      unfold writeKeys
      rw [if_pos h6]
      simp [h0]
    · have hstep : 6 - idx = (6 - (idx + 1)) + 1 := by omega
      unfold writeKeys
      rw [if_neg h6]
      have hset : (front ++ List.replicate (6 - idx) 0).set (2 + idx) (regularCode k)
          = (front ++ [regularCode k]) ++ List.replicate (6 - (idx + 1)) 0 := by
        rw [hstep, List.replicate_succ, ← hf, set_append_len]
        simp [List.set]
      rw [hset, ih (idx + 1) (front ++ [regularCode k]) (by simp [hf]; omega) (by omega)]
      rw [hstep]
      simp [List.take_succ_cons, List.append_assoc, Nat.succ_sub_succ]

/-- The overflow warning fires exactly when the enumeration would step to
index 6 or beyond with keys remaining. -/
lemma writeKeysWarns_iff :
    ∀ (keys : List RegularKey) (idx : Nat), idx ≤ 6 →
      (writeKeysWarns keys idx = true ↔ 6 - idx < keys.length) := by
  intro keys
  induction keys with
  | nil => intro idx h; simp [writeKeysWarns]
  | cons k rest ih =>
    intro idx h
    unfold writeKeysWarns
    split_ifs with h6
    · simp
      omega
    · rw [ih (idx + 1) (by omega)]
      simp
      omega

/-- The regular-key loop never touches byte 0 of the report. -/
lemma writeKeys_getElem0 :
    ∀ (keys : List RegularKey) (r : List Nat) (idx : Nat),
      (writeKeys r keys idx)[0]? = r[0]? := by
  intro keys
  induction keys with
  | nil => intro r idx; rfl
  | cons k rest ih =>
    intro r idx
    unfold writeKeys
    split_ifs with h
    · rfl
    · rw [ih, List.getElem?_set_ne (by omega)]

/-- Byte 0 of the report is exactly the modifier OR-fold. -/
lemma to_report_byte0 (modifiers : List ModifierKey) (keys : List RegularKey) :
    (to_report modifiers keys)[0]?
      = some (modifiers.foldl (fun b m => b ||| modifierBits m) 0) := by
  show (writeKeys ((List.replicate 8 0).set 0
      (modifiers.foldl (fun b m => b ||| modifierBits m) 0)) keys 0)[0]? = _
  rw [writeKeys_getElem0]
  rw [List.getElem?_set_self (by simp)]

/-- `Iterator::position` finds nothing when the key is not tracked. -/
lemma findIdx_eq_none_of_not_mem {α : Type _} [DecidableEq α] {l : List α}
    {x : α} (h : x ∉ l) :
    l.findIdx? (fun y => decide (y = x)) = none := by
  induction l with
  | nil => rfl
  | cons a t ih =>
    simp only [List.mem_cons, not_or] at h
    simp only [List.findIdx?_cons]
    rw [if_neg (by simp only [decide_eq_true_eq]; exact fun he => h.1 he.symm)]
    rw [List.findIdx?_succ, ih h.2]
    rfl

/-- `Iterator::position` finds the first occurrence. -/
lemma findIdx_append_cons {α : Type _} [DecidableEq α] (l₁ l₂ : List α)
    (x : α) (h : x ∉ l₁) :
    (l₁ ++ x :: l₂).findIdx? (fun y => decide (y = x)) = some l₁.length := by
  induction l₁ with
  | nil => simp [List.findIdx?_cons]
  | cons a t ih =>
    simp only [List.mem_cons, not_or] at h
    simp only [List.cons_append, List.findIdx?_cons]
    rw [if_neg (by simp only [decide_eq_true_eq]; exact fun he => h.1 he.symm)]
    rw [List.findIdx?_succ, ih h.2]
    simp

/-- `Vec::remove` at the found index drops exactly that element. -/
lemma eraseIdx_append_len {α : Type _} (l₁ l₂ : List α) (x : α) :
    (l₁ ++ x :: l₂).eraseIdx l₁.length = l₁ ++ l₂ := by
  induction l₁ with
  | nil => rfl
  | cons a t ih => simp [List.eraseIdx_cons_succ, ih]

/-- First-occurrence removal on a list decomposed around the first hit. -/
lemma removeFirst_append {α : Type _} [DecidableEq α] (l₁ l₂ : List α)
    (x : α) (h : x ∉ l₁) :
    removeFirst (l₁ ++ x :: l₂) x = l₁ ++ l₂ := by
  unfold removeFirst
  rw [findIdx_append_cons l₁ l₂ x h]
  exact eraseIdx_append_len l₁ l₂ x

/-- Removing an untracked key is a no-op. -/
lemma removeFirst_not_mem {α : Type _} [DecidableEq α] {l : List α} {x : α}
    (h : x ∉ l) : removeFirst l x = l := by
  unfold removeFirst
  rw [findIdx_eq_none_of_not_mem h]

/- ----------------------------------------------------------------- -/
/- Claim theorems                                                     -/
/- ----------------------------------------------------------------- -/

/-- C1: on the press stream start key, LeftShift, Grave, Period,
Backspace, Backspace (the start key plus only the FIRST FIVE keys of the
six-key quit sequence), the quit handler already fires — and it does not
fire on the four-key prefix, and still fires only once when all six keys
are sent.  `chord_length` counts the start key but `chord.len()` does
not, so the completion check `chord.len() as u8 != self.chord_length`
fires one key early: the claimed "after the 6th key following the start
key, and not before" is violated by the code. -/
theorem quit_chord_fires_after_fifth_key :
    (runEvents initialKeyboard
        [(1, .Regular .Enter), (1, .Modifier .LeftShift), (1, .Regular .Grave),
         (1, .Regular .Period), (1, .Regular .Backspace),
         (1, .Regular .Backspace)]).map Prod.snd = some [QUIT_CHORD_SEQUENCE]
  ∧ (runEvents initialKeyboard
        [(1, .Regular .Enter), (1, .Modifier .LeftShift), (1, .Regular .Grave),
         (1, .Regular .Period), (1, .Regular .Backspace)]).map Prod.snd
      = some []
  ∧ (runEvents initialKeyboard
        [(1, .Regular .Enter), (1, .Modifier .LeftShift), (1, .Regular .Grave),
         (1, .Regular .Period), (1, .Regular .Backspace), (1, .Regular .Backspace),
         (1, .Regular .Backspace)]).map Prod.snd = some [QUIT_CHORD_SEQUENCE] := by
  refine ⟨by decide, by decide, by decide⟩

/-- C2 counterexample: a repeat-kind event (value 2) does NOT leave the
matcher state unchanged.  At the reachable state two keys into the quit
chord, a LeftShift repeat re-runs the matcher on the stale buffer,
emptying the candidate list and resetting the matched length; at the
reachable state five keys in, a Backspace repeat even fires the quit
handler; and at a state whose buffer still holds a raw LeftShift, a
repeat rewrites the buffer to its canonical Either form. -/
theorem repeat_event_advances_chord_matching :
    ((processEvent armedAfterShift 2 (.Modifier .LeftShift)).map
        (fun p => (p.1.chord_length, p.1.possible_chords, p.2))
      = some (0, [], none))
  ∧ armedAfterShift.chord_length = 2
  ∧ armedAfterShift.possible_chords = [QUIT_CHORD_SEQUENCE]
  ∧ ((processEvent armedNearQuit 2 (.Regular .Backspace)).map (fun p => p.2)
      = some (some QUIT_CHORD_SEQUENCE))
  ∧ ((processEvent staleShiftState 2 (.Modifier .LeftShift)).map
      (fun p => p.1.chord_buffer) = some (.Modifier .EitherShift))
  ∧ staleShiftState.chord_buffer = .Modifier .LeftShift := by
  refine ⟨by decide, by decide, by decide, by decide, by decide, by decide⟩

/-- C2 (amended): a repeat-kind event never panics and leaves the
pressed-regular and pressed-modifier lists unchanged; the chord buffer is
unchanged except possibly for in-place canonicalization.  (The matcher
fields are NOT preserved: `process_chords` runs after every event,
repeats included, so the matched length and candidate list may change and
a handler may fire — see the counterexample.) -/
theorem repeat_event_preserves_key_lists (s : Keyboard) (kc : KeyCode) :
    ∃ s2 fired, processEvent s 2 kc = some (s2, fired)
      ∧ s2.keys = s.keys ∧ s2.modifiers = s.modifiers
      ∧ (s2.chord_buffer = s.chord_buffer
         ∨ replacedModifier s.chord_buffer = some s2.chord_buffer) := by
  obtain ⟨h1, h2, h3⟩ := process_chords_frame s
  refine ⟨(process_chords s).1, (process_chords s).2, ?_, h1, h2, h3⟩
  unfold processEvent
  rw [show process_key_events s 2 kc = some s from rfl]

/-- C3: under persistent dispatch failure the write loop and the flush
loop never exit, no matter how many iterations are run — the source's
`attempt >= MAX_ATTEMPTS` check only logs and does not break, so the
claimed termination after at most 256 attempts does not hold. -/
theorem retry_loops_never_exit_on_persistent_failure :
    (∀ attempt fuel, writeLoopFuel (fun _ => false) attempt fuel = none)
  ∧ (∀ i fuel, flushLoopFuel (fun _ => false) i fuel = false) := by
  constructor
  · intro attempt fuel
    induction fuel generalizing attempt with
    | zero => rfl
    | succ n ih => simp [writeLoopFuel, ih]
  · intro i fuel
    induction fuel generalizing i with
    | zero => rfl
    | succ n ih => simp [flushLoopFuel, ih]

/-- C4: the encoded report is byte 0 = modifier OR-fold, byte 1 = 0,
bytes 2.. = the usage codes of the first six pressed regular keys in
tracked order, and zeros in the remaining slots; the overflow warning is
emitted exactly when more than six regular keys are pressed. -/
theorem to_report_layout (modifiers : List ModifierKey) (keys : List RegularKey) :
    to_report modifiers keys
      = [modifiers.foldl (fun b m => b ||| modifierBits m) 0, 0]
          ++ (keys.take 6).map regularCode
          ++ List.replicate (6 - keys.length) 0
  ∧ (to_report_warns keys = true ↔ 6 < keys.length) := by
  constructor
  · show writeKeys ((List.replicate 8 0).set 0
        (modifiers.foldl (fun b m => b ||| modifierBits m) 0)) keys 0 = _
    have h8 : (List.replicate 8 0).set 0
          (modifiers.foldl (fun b m => b ||| modifierBits m) 0)
        = [modifiers.foldl (fun b m => b ||| modifierBits m) 0, 0]
            ++ List.replicate 6 0 := rfl
    rw [h8]
    exact writeKeys_spec keys 0 _ rfl (by omega)
  · unfold to_report_warns
    rw [writeKeysWarns_iff keys 0 (by omega)]

/-- C5: byte 0 of the report equals the OR-fold of the pressed modifiers'
bit values, and is invariant under permutation and under duplication of
the modifier list. -/
theorem report_modifier_byte_or (mods mods' : List ModifierKey)
    (keys : List RegularKey) (m : ModifierKey)
    (_hphys : ∀ x ∈ mods, x.isPhysical = true) (hperm : mods.Perm mods') :
    (to_report mods keys)[0]?
        = some (mods.foldl (fun b x => b ||| modifierBits x) 0)
  ∧ (to_report mods keys)[0]? = (to_report mods' keys)[0]?
  ∧ (to_report (m :: m :: mods) keys)[0]?
      = (to_report (m :: mods) keys)[0]? := by
  refine ⟨to_report_byte0 mods keys, ?_, ?_⟩
  · rw [to_report_byte0, to_report_byte0]
    exact congrArg some (hperm.foldl_eq'
      (fun x _ y _ z => by
        rw [Nat.lor_assoc, Nat.lor_comm (modifierBits x), ← Nat.lor_assoc]) 0)
  · rw [to_report_byte0, to_report_byte0]
    simp only [List.foldl_cons]
    rw [Nat.lor_assoc, Nat.or_self]

/-- Witness for C5 at a concrete pair of permuted modifier lists with a
duplicated RightAlt. -/
theorem report_modifier_byte_or_witness :
    ((to_report [.LeftShift, .LeftCtrl] [])[0]?
        = some ([ModifierKey.LeftShift, .LeftCtrl].foldl
            (fun b x => b ||| modifierBits x) 0))
  ∧ (to_report [.LeftShift, .LeftCtrl] [])[0]?
      = (to_report [.LeftCtrl, .LeftShift] [])[0]?
  ∧ (to_report (.RightAlt :: .RightAlt :: [.LeftShift, .LeftCtrl]) [])[0]?
      = (to_report (.RightAlt :: [.LeftShift, .LeftCtrl]) [])[0]? :=
  report_modifier_byte_or [.LeftShift, .LeftCtrl] [.LeftCtrl, .LeftShift] []
    .RightAlt (by decide) (by decide)

/-- C6: a release of a tracked regular key (resp. modifier) removes
exactly the first occurrence from the corresponding list, leaves the
other list and the remaining entries untouched in order, and resets the
chord buffer to the `Unknown` sentinel; releasing an untracked key or an
`Unknown` key code leaves both lists unchanged. -/
theorem release_removes_first_occurrence (s : Keyboard) (k : RegularKey)
    (m : ModifierKey) (l₁ l₂ : List RegularKey) (m₁ m₂ : List ModifierKey) :
    (s.keys = l₁ ++ k :: l₂ → k ∉ l₁ →
      process_key_events s 0 (.Regular k)
        = some { s with keys := l₁ ++ l₂, chord_buffer := .Unknown })
  ∧ (k ∉ s.keys →
      process_key_events s 0 (.Regular k)
        = some { s with chord_buffer := .Unknown })
  ∧ (s.modifiers = m₁ ++ m :: m₂ → m ∉ m₁ →
      process_key_events s 0 (.Modifier m)
        = some { s with modifiers := m₁ ++ m₂, chord_buffer := .Unknown })
  ∧ (m ∉ s.modifiers →
      process_key_events s 0 (.Modifier m)
        = some { s with chord_buffer := .Unknown })
  ∧ process_key_events s 0 .Unknown = some { s with chord_buffer := .Unknown } := by
  have baseR : process_key_events s 0 (KeyCode.Regular k)
      = some { s with keys := removeFirst s.keys k,
                      chord_buffer := KeyCode.Unknown } := rfl
  have baseM : process_key_events s 0 (KeyCode.Modifier m)
      = some { s with modifiers := removeFirst s.modifiers m,
                      chord_buffer := KeyCode.Unknown } := rfl
  refine ⟨?_, ?_, ?_, ?_, rfl⟩
  · intro hk hnot
    rw [baseR, hk, removeFirst_append _ _ _ hnot]
  · intro hnot
    rw [baseR, removeFirst_not_mem hnot]
  · intro hm hnot
    rw [baseM, hm, removeFirst_append _ _ _ hnot]
  · intro hnot
    rw [baseM, removeFirst_not_mem hnot]

/-- Witness for C6 on a state tracking A, B, A: releasing A removes only
the first A; releasing untracked keys is a no-op on the lists. -/
theorem release_removes_first_occurrence_witness :
    process_key_events dupKeysState 0 (.Regular .A)
      = some { dupKeysState with keys := [.B, .A], chord_buffer := .Unknown }
  ∧ process_key_events dupKeysState 0 (.Regular .C)
      = some { dupKeysState with chord_buffer := .Unknown }
  ∧ process_key_events dupKeysState 0 (.Modifier .RightAlt)
      = some { dupKeysState with chord_buffer := .Unknown } :=
  ⟨(release_removes_first_occurrence dupKeysState .A .RightAlt [] [.B, .A]
      [] []).1 rfl (by decide),
   (release_removes_first_occurrence dupKeysState .C .RightAlt [] []
      [] []).2.1 (by decide),
   (release_removes_first_occurrence dupKeysState .A .RightAlt [] []
      [] []).2.2.2.1 (by decide)⟩

/-- C7: pressing the reserved start key in any session state re-arms the
matcher — candidate list reset to the full chord table, matched length
set to 1 — discarding any prior partial-match progress (and, being a
press, it also appends Enter to the pressed-regular list and fires no
handler). -/
theorem start_key_press_rearms_matching (s : Keyboard) :
    processEvent s 1 CHORD_SEQUENCE_START_KEY
      = some ({ s with keys := s.keys ++ [.Enter],
                       chord_buffer := CHORD_SEQUENCE_START_KEY,
                       chord_length := 1,
                       possible_chords := ALL_CHORDS }, none) := by
  rfl

/-- C8: a release event (of any key code) in a state with a match in
progress leaves the matched length and the candidate-chord list unchanged
and invokes no handler. -/
theorem release_preserves_chord_state (s : Keyboard) (kc : KeyCode)
    (_h : 1 ≤ s.chord_length) :
    ∃ s2, processEvent s 0 kc = some (s2, none)
      ∧ s2.chord_length = s.chord_length
      ∧ s2.possible_chords = s.possible_chords := by
  obtain ⟨s1, h1, hb, hl, hp⟩ := pke_release_shape s kc
  refine ⟨s1, ?_, hl, hp⟩
  unfold processEvent
  rw [h1]
  show some (process_chords s1) = some (s1, none)
  rw [process_chords_unknown s1 hb]

/-- Witness for C8 at the armed state two keys into the quit chord. -/
theorem release_preserves_chord_state_witness :
    ∃ s2, processEvent armedAfterShift 0 (.Modifier .LeftShift)
        = some (s2, none)
      ∧ s2.chord_length = armedAfterShift.chord_length
      ∧ s2.possible_chords = armedAfterShift.possible_chords :=
  release_preserves_chord_state armedAfterShift (.Modifier .LeftShift) (by decide)

/-- C9: `handle_chord` on any chord other than the quit sequence logs an
error and returns: no exit, no other action, session state untouched. -/
theorem unhandled_chord_logs_error (s : Keyboard) (chord : List KeyCode)
    (h : chord ≠ QUIT_CHORD_SEQUENCE) :
    handle_chord s chord = (s, .logError) := by
  unfold handle_chord
  rw [if_neg h]

/-- Witness for C9 at a concrete non-quit chord. -/
theorem unhandled_chord_logs_error_witness :
    handle_chord initialKeyboard [KeyCode.Regular .A]
      = (initialKeyboard, .logError) :=
  unhandled_chord_logs_error initialKeyboard [KeyCode.Regular .A] (by decide)

/-- C10: event values 3..=255 convert to a `u8` and hit the unreachable
arm (a panic); values outside the byte range fall back via `unwrap_or` to
the Release discriminant and are processed as a release; values in
{0, 1, 2} never panic. -/
theorem event_value_panic_boundary (v : Int) (s : Keyboard) (kc : KeyCode) :
    (3 ≤ v → v ≤ 255 → process_key_events s v kc = none)
  ∧ ((v < 0 ∨ 255 < v) → process_key_events s v kc = process_key_events s 0 kc)
  ∧ ((v = 0 ∨ v = 1 ∨ v = 2) → (process_key_events s v kc).isSome = true) := by
  refine ⟨?_, ?_, ?_⟩
  · intro h3 h255
    simp only [process_key_events, releaseValue, pressValue, repeatValue]
    split_ifs with h1 h2 h3' h4 <;> first | rfl | omega
  · intro hout
    simp only [process_key_events, releaseValue, pressValue, repeatValue]
    split_ifs with h1 h2 <;> first | rfl | omega
  · intro hin
    rcases hin with rfl | rfl | rfl <;> rfl

/-- Witness for C10 at values 7 (panic), -5 (treated as release) and 2
(repeat, no panic). -/
theorem event_value_panic_boundary_witness :
    process_key_events initialKeyboard 7 KeyCode.Unknown = none
  ∧ process_key_events initialKeyboard (-5) KeyCode.Unknown
      = process_key_events initialKeyboard 0 KeyCode.Unknown
  ∧ (process_key_events initialKeyboard 2 KeyCode.Unknown).isSome = true :=
  ⟨(event_value_panic_boundary 7 initialKeyboard KeyCode.Unknown).1
      (by decide) (by decide),
   (event_value_panic_boundary (-5) initialKeyboard KeyCode.Unknown).2.1
      (Or.inl (by decide)),
   (event_value_panic_boundary 2 initialKeyboard KeyCode.Unknown).2.2
      (Or.inr (Or.inr rfl))⟩

end KeyboardBridge
